import Mathlib

/-!
Shallow embedding of the static-analysis core of the `pr-review-agent`
repository: the security scanner (`SecurityScannerTool`, file
`src/tools/security-scanner.ts`, provided unnamed) and the code-metrics
tool (`src/tools/code-metrics.ts`).

Strings are modelled as Lean `String` at the API boundary and as
`List Char` internally.  JavaScript regular-expression tests are
translated rule by rule into decidable Boolean matchers whose structure
mirrors the regex constructs: unanchored search becomes a scan over all
suffixes, `X*` followed by a continuation becomes an existential skip
over characters allowed by `X`, and deterministic sequencing is used
only where the regex classes are disjoint so no backtracking can change
the outcome.  Character classes follow the ASCII behaviour of the JS
classes (`\s`, `\w`, `.`); the inputs handled by the scanner are lines
produced by splitting on a newline, so the line-terminator subtleties of
`.` cannot be observed.  JS counters are embedded as `Nat` where the
source can only produce non-negative integers and as `Int` where a
brace counter may go negative; ratios are `Rat`; the two floating-point
formulas (maintainability index, quality score) are embedded over `Real`.
-/

namespace PRA

/-- The double-quote character (written by code to keep literals scanner-friendly). -/
def dqChar : Char := Char.ofNat 34

/-- The single-quote character. -/
def sqChar : Char := Char.ofNat 39

/-- The backtick character. -/
def btChar : Char := Char.ofNat 96

/-- The opening curly-brace character. -/
def obChar : Char := Char.ofNat 123

/-- The closing curly-brace character. -/
def cbChar : Char := Char.ofNat 125

/-- The three JS quote characters, as matched by the class of quotes
appearing in the security rules. -/
def isJsQuote (c : Char) : Bool :=
  c = dqChar || c = sqChar || c = btChar

/-- ASCII behaviour of the JS regex class `\s` (space, tab, newline,
carriage return, vertical tab, form feed). -/
def isWSChar (c : Char) : Bool :=
  c = ' ' || c = '\t' || c = '\n' || c = '\r' || c = Char.ofNat 11 || c = Char.ofNat 12

/-- The JS regex class `\w`: ASCII letters, digits, underscore. -/
def isWordChar (c : Char) : Bool :=
  c.isAlpha || c.isDigit || c = '_'

/-- The JS regex `.` (without the dotall flag): any character except a
line terminator. -/
def isDotChar (c : Char) : Bool :=
  !(c = '\n' || c = '\r')

/-- `startsWithL pat s` holds when `pat` is an initial segment of `s`
(a literal at the current match position). -/
def startsWithL : List Char → List Char → Bool
  | [], _ => true
  | _ :: _, [] => false
  | p :: ps, c :: cs => p = c && startsWithL ps cs

/-- `seekPast allowed p s`: some suffix of `s`, reachable from `s` by
skipping only characters satisfying `allowed`, satisfies `p`.  This is
the meaning of a regex segment `C* K` (class-star then continuation). -/
def seekPast (allowed : Char → Bool) (p : List Char → Bool) : List Char → Bool
  | [] => p []
  | c :: rest => p (c :: rest) || (allowed c && seekPast allowed p rest)

/-- `anySuffix p s`: some suffix of `s` satisfies `p` — unanchored regex
search. -/
def anySuffix (p : List Char → Bool) : List Char → Bool :=
  seekPast (fun _ => true) p

/-- Regex `.*` followed by a continuation. -/
def seekDot (p : List Char → Bool) : List Char → Bool :=
  seekPast isDotChar p

/-- Regex `\s*` followed by a continuation, keeping every backtracking
stop of the star. -/
def seekWS (p : List Char → Bool) : List Char → Bool :=
  seekPast isWSChar p

/-- Regex `[^)]*` followed by a continuation. -/
def seekNP (p : List Char → Bool) : List Char → Bool :=
  seekPast (fun c => !(c = ')')) p

/-- Substring containment (the JS `String.prototype.includes`). -/
def strContainsL (needle : List Char) (hay : List Char) : Bool :=
  anySuffix (startsWithL needle) hay

/-- Lowercase every character (used to embed the regex `i` flag). -/
def lowerL (l : List Char) : List Char :=
  l.map Char.toLower

/-- The JS `String.prototype.trim` on a character list (ASCII whitespace). -/
def trimL (l : List Char) : List Char :=
  ((l.dropWhile isWSChar).reverse.dropWhile isWSChar).reverse

/-- Split a character list at a separator character; mirrors the JS
`String.prototype.split` with a single-character separator (always
returns at least one, possibly empty, part). -/
def splitOnChar (sep : Char) : List Char → List (List Char)
  | [] => [[]]
  | c :: rest =>
    match splitOnChar sep rest with
    | [] => [[c]]
    | h :: t => if c = sep then [] :: h :: t else (c :: h) :: t

/-- Split into lines at the newline character (JS `split("\n")`). -/
def splitLines : List Char → List (List Char) :=
  splitOnChar '\n'

/-- Join parts with a newline character (JS `Array.prototype.join("\n")`). -/
def joinNL : List (List Char) → List Char
  | [] => []
  | [l] => l
  | l :: rest => l ++ '\n' :: joinNL rest

/-- Any of the given literals starts at the current position. -/
def anyLit (kws : List (List Char)) (v : List Char) : Bool :=
  kws.any (fun k => startsWithL k v)

/-- Issue severity, the four-valued scale of `SecurityIssue['severity']`
(also used for the batch risk level). -/
inductive Severity where
  | low
  | medium
  | high
  | critical
deriving DecidableEq, Repr

/-- Issue category, `SecurityIssue['category']`. -/
inductive Category where
  | injection
  | authentication
  | authorization
  | cryptography
  | sensitiveData
  | configuration
  | dependencies
  | general
deriving DecidableEq, Repr

/-- The `SecurityIssue` record produced by the scanner. -/
structure SecurityIssue where
  severity : Severity
  category : Category
  title : String
  description : String
  filename : String
  line : Nat
  evidence : String
  recommendation : String
  cweId : Option String
  owasp : Option String
deriving DecidableEq, Repr

/-- The per-severity counters of a `SecurityScanResult`. -/
structure SeverityCounts where
  critical : Nat
  high : Nat
  medium : Nat
  low : Nat
deriving DecidableEq, Repr

/-- The `SecurityScanResult` record. -/
structure SecurityScanResult where
  filename : String
  totalIssues : Nat
  bySeverity : SeverityCounts
  issues : List SecurityIssue
  riskScore : Nat
deriving DecidableEq, Repr

/-- A security rule of the static catalog: the regex is embedded as the
decidable matcher `test` on the characters of one line. -/
structure SecurityRule where
  id : String
  name : String
  test : List Char → Bool
  severity : Severity
  category : Category
  description : String
  recommendation : String
  cweId : Option String
  owasp : Option String
  languages : Option (List String)

/-- Matcher of rule `sql-injection-1`, regex
`/\$\x7b.*\x7d.*(?:SELECT|INSERT|UPDATE|DELETE|DROP|CREATE|ALTER)/i`. -/
def sqlInjection1Hit (line : List Char) : Bool :=
  anySuffix
    (fun t => startsWithL ['$', obChar] t &&
      seekDot
        (fun u => startsWithL [cbChar] u &&
          seekDot
            (anyLit ["select".data, "insert".data, "update".data, "delete".data,
              "drop".data, "create".data, "alter".data])
            (u.drop 1))
        (t.drop 2))
    (lowerL line)

/-- Tail of rule `sql-injection-2` after the `query`/`sql` literal:
`\s*[+]=?\s*['"]` (quote class also holds the backtick) then
`.*(?:SELECT|INSERT|UPDATE|DELETE)`.  The star skips are deterministic
because `+`, `=` and the quotes are not whitespace. -/
def sql2Tail (u : List Char) : Bool :=
  match u.dropWhile isWSChar with
  | [] => false
  | c :: rest =>
    c = '+' &&
    (let u2 := if startsWithL ['='] rest then rest.drop 1 else rest
     match u2.dropWhile isWSChar with
     | [] => false
     | q :: rest2 =>
       isJsQuote q &&
       seekDot (anyLit ["select".data, "insert".data, "update".data, "delete".data]) rest2)

/-- Matcher of rule `sql-injection-2`, regex
`/(?:query|sql)\s*[+]=?\s*['"].*(?:SELECT|INSERT|UPDATE|DELETE)/i`
(the quote class also holds the backtick). -/
def sqlInjection2Hit (line : List Char) : Bool :=
  anySuffix
    (fun t =>
      (startsWithL "query".data t && sql2Tail (t.drop 5)) ||
      (startsWithL "sql".data t && sql2Tail (t.drop 3)))
    (lowerL line)

/-- The negative-lookahead body of rule `xss-1`: a quote followed by the
literal `static`. -/
def startsQuoteStatic : List Char → Bool
  | [] => false
  | q :: r => isJsQuote q && startsWithL "static".data r

/-- Matcher of rule `xss-1`, regex `/innerHTML\s*=\s*(?!['"]static)/i`
(quote class also holds the backtick).  The second `\s*` is kept
existential: the regex engine may stop the star early, which makes the
negative lookahead succeed whenever at least one whitespace character
separates `=` from a quoted `static` literal. -/
def xss1Hit (line : List Char) : Bool :=
  anySuffix
    (fun t => startsWithL "innerhtml".data t &&
      (match (t.drop 9).dropWhile isWSChar with
       | [] => false
       | c :: rest => c = '=' && seekWS (fun v => !startsQuoteStatic v) rest))
    (lowerL line)

/-- Matcher of rule `xss-2`, regex `/\.(?:outerHTML|insertAdjacentHTML)\s*\(/i`. -/
def xss2Hit (line : List Char) : Bool :=
  anySuffix
    (fun t => startsWithL ['.'] t &&
      (let u := t.drop 1
       (startsWithL "outerhtml".data u &&
         startsWithL ['('] ((u.drop 9).dropWhile isWSChar)) ||
       (startsWithL "insertadjacenthtml".data u &&
         startsWithL ['('] ((u.drop 18).dropWhile isWSChar))))
    (lowerL line)

/-- Tail of rule `command-injection-1` after the opening parenthesis:
`\s*(?:\$|.*input|.*request)`.  For the `\$` branch the whitespace skip
is deterministic; for the dot-star branches the dot subsumes whitespace,
so seeking from just after the parenthesis is equivalent. -/
def cmd1Tail (u : List Char) : Bool :=
  startsWithL ['$'] (u.dropWhile isWSChar) ||
  seekDot (startsWithL "input".data) u ||
  seekDot (startsWithL "request".data) u

/-- Matcher of rule `command-injection-1`, regex
`/(?:exec|system|shell_exec|passthru|eval)\s*\(\s*(?:\$|.*input|.*request)/i`. -/
def commandInjection1Hit (line : List Char) : Bool :=
  anySuffix
    (fun t =>
      ([("exec".data, 4), ("system".data, 6), ("shell_exec".data, 10),
        ("passthru".data, 8), ("eval".data, 4)].any
        (fun kw =>
          startsWithL kw.1 t &&
          (match (t.drop kw.2).dropWhile isWSChar with
           | [] => false
           | c :: rest => c = '(' && cmd1Tail rest))))
    (lowerL line)

/-- One character of the class `[^'"\s]` of rule `hardcoded-password-1`
(quote class also holds the backtick). -/
def isSecretChar (c : Char) : Bool :=
  !isJsQuote c && !isWSChar c

/-- Shared tail of the hardcoded-credential rules:
`\s*[:=]\s*` then a quote, then at least `n` characters of class `cls`. -/
def credTail (cls : Char → Bool) (n : Nat) (u : List Char) : Bool :=
  match u.dropWhile isWSChar with
  | [] => false
  | c :: rest =>
    (c = ':' || c = '=') &&
    (match rest.dropWhile isWSChar with
     | [] => false
     | q :: rest2 => isJsQuote q && n ≤ (rest2.takeWhile cls).length)

/-- Matcher of rule `hardcoded-password-1`, regex
`/(?:password|passwd|pwd)\s*[:=]\s*['"][^'"\s]\x7b8,\x7d/i`
(quote classes also hold the backtick). -/
def hardcodedPassword1Hit (line : List Char) : Bool :=
  anySuffix
    (fun t =>
      (startsWithL "password".data t && credTail isSecretChar 8 (t.drop 8)) ||
      (startsWithL "passwd".data t && credTail isSecretChar 8 (t.drop 6)) ||
      (startsWithL "pwd".data t && credTail isSecretChar 8 (t.drop 3)))
    (lowerL line)

/-- One character of the class `[a-zA-Z0-9+/]` of rule `hardcoded-key-1`. -/
def isKeyChar (c : Char) : Bool :=
  c.isAlpha || c.isDigit || c = '+' || c = '/'

/-- `base` then the optional separator `[_-]?` then `word`, as in
`api[_-]?key`.  Consuming a present separator is forced because the
separator characters cannot begin `word`. -/
def litOptSep (base word : List Char) (t : List Char) : Bool :=
  startsWithL base t &&
  (let u := t.drop base.length
   let u2 := match u with
     | c :: rest => if c = '_' || c = '-' then rest else u
     | [] => u
   startsWithL word u2)

/-- Length consumed by `litOptSep` when it holds (for continuing after it). -/
def litOptSepRest (base word : List Char) (t : List Char) : List Char :=
  let u := t.drop base.length
  let u2 := match u with
    | c :: rest => if c = '_' || c = '-' then rest else u
    | [] => u
  u2.drop word.length

/-- Matcher of rule `hardcoded-key-1`, regex
`/(?:api[_-]?key|secret[_-]?key|access[_-]?token)\s*[:=]\s*['"][a-zA-Z0-9+/]\x7b20,\x7d/i`
(quote class also holds the backtick). -/
def hardcodedKey1Hit (line : List Char) : Bool :=
  anySuffix
    (fun t =>
      ([("api".data, "key".data), ("secret".data, "key".data),
        ("access".data, "token".data)].any
        (fun kw =>
          litOptSep kw.1 kw.2 t &&
          credTail isKeyChar 20 (litOptSepRest kw.1 kw.2 t))))
    (lowerL line)

/-- Matcher of rule `weak-crypto-1`, regex `/(?:md5|sha1)\s*\(/i`. -/
def weakCrypto1Hit (line : List Char) : Bool :=
  anySuffix
    (fun t =>
      ([("md5".data, 3), ("sha1".data, 4)].any
        (fun kw =>
          startsWithL kw.1 t &&
          startsWithL ['('] ((t.drop kw.2).dropWhile isWSChar))))
    (lowerL line)

/-- Matcher of rule `weak-crypto-2`, regex `/Math\.random\(\)/i`. -/
def weakCrypto2Hit (line : List Char) : Bool :=
  strContainsL "math.random()".data (lowerL line)

/-- Matcher of rule `path-traversal-1`, regex
`/(?:readFile|writeFile|createReadStream|createWriteStream)\s*\([^)]*\.\.\/[^)]*\)/i`. -/
def pathTraversal1Hit (line : List Char) : Bool :=
  anySuffix
    (fun t =>
      ([("readfile".data, 8), ("writefile".data, 9), ("createreadstream".data, 16),
        ("createwritestream".data, 17)].any
        (fun kw =>
          startsWithL kw.1 t &&
          (match (t.drop kw.2).dropWhile isWSChar with
           | [] => false
           | c :: rest =>
             c = '(' &&
             seekNP
               (fun u => startsWithL "../".data u &&
                 startsWithL [')'] ((u.drop 3).dropWhile (fun d => !(d = ')'))))
               rest))))
    (lowerL line)

/-- Matcher of rule `debug-info-1`, regex
`/console\.(?:log|info|warn|error)\s*\([^)]*(?:password|token|key|secret)/i`. -/
def debugInfo1Hit (line : List Char) : Bool :=
  anySuffix
    (fun t => startsWithL "console.".data t &&
      (let u := t.drop 8
       ([("log".data, 3), ("info".data, 4), ("warn".data, 4), ("error".data, 5)].any
        (fun kw =>
          startsWithL kw.1 u &&
          (match (u.drop kw.2).dropWhile isWSChar with
           | [] => false
           | c :: rest =>
             c = '(' &&
             seekNP
               (anyLit ["password".data, "token".data, "key".data, "secret".data])
               rest)))))
    (lowerL line)

/-- Matcher of rule `insecure-protocol-1`, regex
`/['"]http:\/\/(?!(?:localhost|127\.0\.0\.1|0\.0\.0\.0))/i`
(quote class also holds the backtick).  All literals before the negative
lookahead are fixed-width, so no backtracking interacts with it. -/
def insecureProtocol1Hit (line : List Char) : Bool :=
  anySuffix
    (fun t =>
      match t with
      | [] => false
      | q :: u =>
        isJsQuote q && startsWithL "http://".data u &&
        (let v := u.drop 7
         !(startsWithL "localhost".data v || startsWithL "127.0.0.1".data v ||
           startsWithL "0.0.0.0".data v)))
    (lowerL line)

/-- Matcher of rule `cors-wildcard-1`, regex `/['"]\*['"]/` (quote
classes also hold the backtick; the only rule without the `i` flag —
it has no cased characters). -/
def corsWildcard1Hit (line : List Char) : Bool :=
  anySuffix
    (fun t =>
      match t with
      | q :: s :: r :: _ => isJsQuote q && s = '*' && isJsQuote r
      | _ => false)
    line

/-- Matcher of rule `weak-session-1`, regex
`/(?:httpOnly|secure|sameSite)\s*:\s*false/i`. -/
def weakSession1Hit (line : List Char) : Bool :=
  anySuffix
    (fun t =>
      ([("httponly".data, 8), ("secure".data, 6), ("samesite".data, 8)].any
        (fun kw =>
          startsWithL kw.1 t &&
          (match (t.drop kw.2).dropWhile isWSChar with
           | [] => false
           | c :: rest =>
             c = ':' && startsWithL "false".data (rest.dropWhile isWSChar)))))
    (lowerL line)

/-- Matcher of rule `nosql-injection-1`, regex `/\$where.*\$\x7b.*\x7d/i`. -/
def nosqlInjection1Hit (line : List Char) : Bool :=
  anySuffix
    (fun t => startsWithL "$where".data t &&
      seekDot
        (fun u => startsWithL ['$', obChar] u &&
          seekDot (startsWithL [cbChar]) (u.drop 2))
        (t.drop 6))
    (lowerL line)

/-- The static catalog `SecurityScannerTool.SECURITY_RULES`, in source
order, with every field of the source records. -/
def SECURITY_RULES : List SecurityRule :=
  [{ id := "sql-injection-1", name := "SQL Injection Risk",
     test := sqlInjection1Hit, severity := .critical, category := .injection,
     description := "SQL文に直接変数を埋め込んでいます",
     recommendation := "パラメータ化クエリまたはORM を使用してください",
     cweId := some "CWE-89", owasp := some "A03:2021 – Injection",
     languages := none },
   { id := "sql-injection-2", name := "Dynamic SQL Construction",
     test := sqlInjection2Hit, severity := .high, category := .injection,
     description := "動的にSQL文を構築しています",
     recommendation := "プリペアドステートメントを使用してください",
     cweId := some "CWE-89", owasp := some "A03:2021 – Injection",
     languages := none },
   { id := "xss-1", name := "Potential XSS",
     test := xss1Hit, severity := .high, category := .injection,
     description := "innerHTML に動的な値を設定しています",
     recommendation := "textContent を使用するか、適切にサニタイズしてください",
     cweId := some "CWE-79", owasp := some "A03:2021 – Injection",
     languages := none },
   { id := "xss-2", name := "Dangerous HTML Method",
     test := xss2Hit, severity := .medium, category := .injection,
     description := "危険なHTML挿入メソッドを使用しています",
     recommendation := "適切にサニタイズするか、より安全な方法を使用してください",
     cweId := some "CWE-79", owasp := some "A03:2021 – Injection",
     languages := none },
   { id := "command-injection-1", name := "Command Injection Risk",
     test := commandInjection1Hit, severity := .critical, category := .injection,
     description := "ユーザー入力をコマンド実行に使用している可能性があります",
     recommendation := "ユーザー入力をコマンド実行に使用しないでください",
     cweId := some "CWE-78", owasp := some "A03:2021 – Injection",
     languages := none },
   { id := "hardcoded-password-1", name := "Hardcoded Password",
     test := hardcodedPassword1Hit, severity := .critical, category := .sensitiveData,
     description := "パスワードがハードコードされています",
     recommendation := "環境変数やシークレット管理システムを使用してください",
     cweId := some "CWE-798",
     owasp := some "A07:2021 – Identification and Authentication Failures",
     languages := none },
   { id := "hardcoded-key-1", name := "Hardcoded API Key",
     test := hardcodedKey1Hit, severity := .critical, category := .sensitiveData,
     description := "APIキーがハードコードされています",
     recommendation := "環境変数を使用してください",
     cweId := some "CWE-798", owasp := some "A02:2021 – Cryptographic Failures",
     languages := none },
   { id := "weak-crypto-1", name := "Weak Hash Algorithm",
     test := weakCrypto1Hit, severity := .medium, category := .cryptography,
     description := "弱いハッシュアルゴリズムを使用しています",
     recommendation := "SHA-256以上の強力なハッシュアルゴリズムを使用してください",
     cweId := some "CWE-327", owasp := some "A02:2021 – Cryptographic Failures",
     languages := none },
   { id := "weak-crypto-2", name := "Insecure Random",
     test := weakCrypto2Hit, severity := .medium, category := .cryptography,
     description := "セキュリティ用途に適さない乱数生成を使用しています",
     recommendation := "crypto.randomBytes() などの暗号学的に安全な乱数生成器を使用してください",
     cweId := some "CWE-338", owasp := some "A02:2021 – Cryptographic Failures",
     languages := some ["javascript", "typescript"] },
   { id := "path-traversal-1", name := "Path Traversal Risk",
     test := pathTraversal1Hit, severity := .high, category := .injection,
     description := "パストラバーサル攻撃の可能性があります",
     recommendation := "ファイルパスを適切に検証してください",
     cweId := some "CWE-22", owasp := some "A01:2021 – Broken Access Control",
     languages := none },
   { id := "debug-info-1", name := "Debug Information Exposure",
     test := debugInfo1Hit, severity := .medium, category := .sensitiveData,
     description := "機密情報がログに出力される可能性があります",
     recommendation := "プロダクション環境では機密情報をログに出力しないでください",
     cweId := some "CWE-532",
     owasp := some "A09:2021 – Security Logging and Monitoring Failures",
     languages := none },
   { id := "insecure-protocol-1", name := "Insecure HTTP",
     test := insecureProtocol1Hit, severity := .medium, category := .configuration,
     description := "安全でないHTTPプロトコルを使用しています",
     recommendation := "HTTPSを使用してください",
     cweId := some "CWE-319", owasp := some "A02:2021 – Cryptographic Failures",
     languages := none },
   { id := "cors-wildcard-1", name := "CORS Wildcard",
     test := corsWildcard1Hit, severity := .medium, category := .configuration,
     description := "CORSでワイルドカードを使用しています",
     recommendation := "特定のオリジンを指定してください",
     cweId := some "CWE-942", owasp := some "A05:2021 – Security Misconfiguration",
     languages := none },
   { id := "weak-session-1", name := "Weak Session Configuration",
     test := weakSession1Hit, severity := .medium, category := .authentication,
     description := "セッションのセキュリティ設定が不適切です",
     recommendation := "httpOnly, secure, sameSite属性を適切に設定してください",
     cweId := some "CWE-614",
     owasp := some "A07:2021 – Identification and Authentication Failures",
     languages := none },
   { id := "nosql-injection-1", name := "NoSQL Injection Risk",
     test := nosqlInjection1Hit, severity := .high, category := .injection,
     description := "NoSQLインジェクションの可能性があります",
     recommendation := "パラメータ化クエリを使用してください",
     cweId := some "CWE-943", owasp := some "A03:2021 – Injection",
     languages := none }]

/-- `SecurityScannerTool.getFileLanguage`: the lowercased part after the
last dot of the filename, looked up in a fixed extension table. -/
def getFileLanguage (filename : String) : String :=
  let parts := splitOnChar '.' filename.data
  let ext := lowerL (parts.getLastD [])
  if ext = "ts".data then "typescript"
  else if ext = "tsx".data then "typescript"
  else if ext = "js".data then "javascript"
  else if ext = "jsx".data then "javascript"
  else if ext = "py".data then "python"
  else if ext = "java".data then "java"
  else if ext = "php".data then "php"
  else if ext = "rb".data then "ruby"
  else if ext = "go".data then "go"
  else if ext = "cs".data then "csharp"
  else "unknown"

/-- The language gate of `scanFile`: a rule is skipped when it carries a
language allow-list that does not hold the file's language. -/
def ruleApplies (r : SecurityRule) (lang : String) : Bool :=
  match r.languages with
  | none => true
  | some ls => ls.contains lang

/-- The issues one line contributes, in catalog order: one
`SecurityIssue` per applicable rule whose pattern tests true, with the
line's trimmed text as evidence. -/
def issuesForLine (filename lang : String) (lineNumber : Nat)
    (line : List Char) : List SecurityIssue :=
  (SECURITY_RULES.filter (fun r => ruleApplies r lang && r.test line)).map
    (fun r =>
      { severity := r.severity, category := r.category, title := r.name,
        description := r.description, filename := filename, line := lineNumber,
        evidence := ⟨trimL line⟩, recommendation := r.recommendation,
        cweId := r.cweId, owasp := r.owasp })

/-- The line loop of `scanFile`: issues of the lines starting at
1-based line number `n`, in line order. -/
def scanIssuesFrom (filename lang : String) (n : Nat) :
    List (List Char) → List SecurityIssue
  | [] => []
  | l :: rest => issuesForLine filename lang n l ++ scanIssuesFrom filename lang (n + 1) rest

/-- The severity histogram of an issue list (the `bySeverity` block of
`scanFile`, built by filtering on each severity). -/
def countBySeverity (issues : List SecurityIssue) : SeverityCounts :=
  { critical := (issues.filter (fun i => i.severity = .critical)).length,
    high := (issues.filter (fun i => i.severity = .high)).length,
    medium := (issues.filter (fun i => i.severity = .medium)).length,
    low := (issues.filter (fun i => i.severity = .low)).length }

/-- `SecurityScannerTool.calculateRiskScore`: a weighted sum of the
severity counters, capped at 100. -/
def calculateRiskScore (s : SeverityCounts) : Nat :=
  min 100 (s.critical * 25 + s.high * 10 + s.medium * 5 + s.low * 1)

/-- `SecurityScannerTool.scanFile`: split the content into lines, run
every applicable rule on every line, and aggregate. -/
def scanFile (content filename : String) : SecurityScanResult :=
  let lines := splitLines content.data
  let lang := getFileLanguage filename
  let issues := scanIssuesFrom filename lang 1 lines
  let bySeverity := countBySeverity issues
  { filename := filename, totalIssues := issues.length, bySeverity := bySeverity,
    issues := issues, riskScore := calculateRiskScore bySeverity }

/-- A file-change record.  Only `filename` and `patch` are ever read by
the analyzed functions; the remaining GitHub fields (status, additions,
deletions, changes, sha, blob reference) never influence them and are
omitted.  An absent patch is `none`; the JS falsiness test `!file.patch`
also skips the empty string. -/
structure FileChange where
  filename : String
  patch : Option String
deriving DecidableEq, Repr

/-- The line-level body of `extractAddedLines`: keep the lines that
start with `+` but not `+++`, and drop their first character. -/
def extractAddedLinesL (ls : List (List Char)) : List (List Char) :=
  (ls.filter (fun l => startsWithL ['+'] l && !startsWithL ['+', '+', '+'] l)).map
    (fun l => l.drop 1)

/-- `SecurityScannerTool.extractAddedLines`: the bodies (first character
dropped) of the patch lines that start with `+` but not `+++`. -/
def extractAddedLines (patch : String) : List (List Char) :=
  extractAddedLinesL (splitLines patch.data)

/-- The JS falsiness of an optional patch string: absent or empty. -/
def patchFalsy : Option String → Bool
  | none => true
  | some p => p.data = []

/-- `SecurityScannerTool.scanFiles`: per file, skip falsy patches and
patches with no added line, scan the joined added lines, and keep only
results with at least one issue. -/
def scanFiles : List FileChange → List SecurityScanResult
  | [] => []
  | f :: rest =>
    if patchFalsy f.patch then scanFiles rest
    else
      match f.patch with
      | none => scanFiles rest
      | some p =>
        let added := extractAddedLines p
        if added = [] then scanFiles rest
        else
          let r := scanFile ⟨joinNL added⟩ f.filename
          if 0 < r.totalIssues then r :: scanFiles rest else scanFiles rest

/-- The batch summary of `generateSecuritySummary`, without the
`topIssues` field (its sorted truncation is referenced by no claim and
is not modelled). -/
structure SecuritySummary where
  totalFiles : Nat
  totalIssues : Nat
  bySeverity : SeverityCounts
  riskLevel : Severity
deriving DecidableEq, Repr

/-- The `flatMap` of all issues of a result list, in order. -/
def allIssuesOf (results : List SecurityScanResult) : List SecurityIssue :=
  results.foldr (fun r acc => r.issues ++ acc) []

/-- `SecurityScannerTool.generateSecuritySummary` (minus `topIssues`):
histogram over all issues of the batch and the derived risk level —
critical when any critical issue exists, else high when the high count
exceeds two, else medium when a high issue exists or the medium count
exceeds five, else low. -/
def generateSecuritySummary (results : List SecurityScanResult) : SecuritySummary :=
  let allIssues := allIssuesOf results
  let bySeverity := countBySeverity allIssues
  let riskLevel : Severity :=
    if 0 < bySeverity.critical then .critical
    else if 2 < bySeverity.high then .high
    else if 0 < bySeverity.high || 5 < bySeverity.medium then .medium
    else .low
  { totalFiles := results.length, totalIssues := allIssues.length,
    bySeverity := bySeverity, riskLevel := riskLevel }

/-! ### Code-metrics tool (`src/tools/code-metrics.ts`) -/

/-- A detected function (`FunctionInfo`).  The brace counter may go
negative on unbalanced input, so the recorded nesting depth is an
integer. -/
structure FunctionInfo where
  name : String
  line : Nat
  endLine : Nat
  complexity : Nat
  length : Nat
  parameterCount : Nat
  nestingDepth : Int
deriving DecidableEq, Repr

/-- The open function context of the scanner (the fields of the partial
record set when a function signature is detected). -/
structure OpenFn where
  name : String
  line : Nat
  complexity : Nat
  parameterCount : Nat
deriving DecidableEq, Repr

/-- Count occurrences of one character in a line. -/
def countCharL (c : Char) (l : List Char) : Nat :=
  (l.filter (fun d => d = c)).length

/-- First alternative of the function-signature regex of
`analyzeJavaScriptFunctions`:
`(?:async\s+)?(?:function\s+|const\s+|let\s+|var\s+)?(\w+)\s*(?:=\s*)?(?:async\s+)?\(([^)]*)\)`.
Returns the captured name and parameter text.  The leading optional
keyword groups never constrain an unanchored search (a match taking
them contains a match of the remainder starting at the captured name),
so the embedded matcher starts at the `(\w+)` group; the stars and
optionals after it are deterministic because the neighbouring character
classes are disjoint. -/
def alt1At (t : List Char) : Option (List Char × List Char) :=
  let name := t.takeWhile isWordChar
  if name = [] then none
  else
    let u1 := (t.drop name.length).dropWhile isWSChar
    let u2 :=
      match u1 with
      | '=' :: r => r.dropWhile isWSChar
      | _ => u1
    let u3 :=
      if startsWithL "async".data u2 &&
          (match u2.drop 5 with
           | c :: _ => isWSChar c
           | [] => false) then
        (u2.drop 5).dropWhile isWSChar
      else u2
    match u3 with
    | '(' :: r =>
      let ps := r.takeWhile (fun c => !(c = ')'))
      if startsWithL [')'] (r.drop ps.length) then some (name, ps) else none
    | _ => none

/-- Second alternative of the function-signature regex:
`(\w+)\s*:\s*(?:async\s+)?\([^)]*\)\s*=>` (no parameter capture). -/
def alt2At (t : List Char) : Option (List Char) :=
  let name := t.takeWhile isWordChar
  if name = [] then none
  else
    match (t.drop name.length).dropWhile isWSChar with
    | ':' :: r =>
      let u2 := r.dropWhile isWSChar
      let u3 :=
        if startsWithL "async".data u2 &&
            (match u2.drop 5 with
             | c :: _ => isWSChar c
             | [] => false) then
          (u2.drop 5).dropWhile isWSChar
        else u2
      match u3 with
      | '(' :: r2 =>
        let ps := r2.takeWhile (fun c => !(c = ')'))
        match r2.drop ps.length with
        | ')' :: r3 =>
          if startsWithL "=>".data (r3.dropWhile isWSChar) then some name else none
        | _ => none
      | _ => none
    | _ => none

/-- The match of the function-signature regex on a trimmed line:
leftmost position, first alternative preferred, yielding the captured
name and the parameter count (`parameters.split(",").length`, zero when
the parameter capture is empty or absent). -/
def jsFnMatch : List Char → Option (String × Nat)
  | [] => none
  | t@(_ :: rest) =>
    match alt1At t with
    | some (n, ps) =>
      some (⟨n⟩, if ps = [] then 0 else (splitOnChar ',' ps).length)
    | none =>
      match alt2At t with
      | some n => some (⟨n⟩, 0)
      | none => jsFnMatch rest

/-- The mutable state of the `analyzeJavaScriptFunctions` loop. -/
structure JsScanState where
  acc : List FunctionInfo
  cur : Option OpenFn
  braceCount : Int
  nesting : Int

/-- One iteration of the `analyzeJavaScriptFunctions` line loop: detect
a signature (which replaces any open context and resets the brace and
nesting counters), then, when a context is open, add the four
branching-keyword increments, update the brace counter, and close the
context when the counter is back to zero on a line that only closes
braces. -/
def jsStep (st : JsScanState) (lineNumber : Nat) (line : List Char) : JsScanState :=
  let trimmed := trimL line
  let st1 : JsScanState :=
    match jsFnMatch trimmed with
    | some (n, pc) =>
      if strContainsL "function".data trimmed || strContainsL "=>".data trimmed then
        { acc := st.acc, cur := some ⟨n, lineNumber, 1, pc⟩, braceCount := 0, nesting := 0 }
      else st
    | none => st
  match st1.cur with
  | none => st1
  | some fn =>
    let c1 := fn.complexity +
      (if strContainsL "if".data trimmed || strContainsL "else if".data trimmed then 1 else 0)
    let c2 := c1 +
      (if strContainsL "for".data trimmed || strContainsL "while".data trimmed ||
          strContainsL "do".data trimmed then 1 else 0)
    let c3 := c2 + (if strContainsL "switch".data trimmed then 1 else 0)
    let c4 := c3 + (if strContainsL "catch".data trimmed then 1 else 0)
    let ob := countCharL obChar line
    let cb := countCharL cbChar line
    let bc := st1.braceCount + ob - cb
    let nd := max st1.nesting bc
    if bc = 0 && ob = 0 && 0 < cb then
      { acc := st1.acc ++
          [{ name := fn.name, line := fn.line, endLine := lineNumber, complexity := c4,
             length := lineNumber - fn.line + 1, parameterCount := fn.parameterCount,
             nestingDepth := nd }],
        cur := none, braceCount := bc, nesting := nd }
    else
      { acc := st1.acc, cur := some { fn with complexity := c4 },
        braceCount := bc, nesting := nd }

/-- The `analyzeJavaScriptFunctions` loop over the lines, 1-based. -/
def jsLoop (st : JsScanState) (n : Nat) : List (List Char) → JsScanState
  | [] => st
  | l :: rest => jsLoop (jsStep st n l) (n + 1) rest

/-- `CodeMetricsTool.analyzeJavaScriptFunctions`. -/
def analyzeJavaScriptFunctions (lines : List (List Char)) : List FunctionInfo :=
  (jsLoop ⟨[], none, 0, 0⟩ 1 lines).acc

/-- `CodeMetricsTool.analyzeFunctions`: only the curly-brace script
languages get the JavaScript analyzer; every other language yields an
empty list. -/
def analyzeFunctions (content : List Char) (language : String) : List FunctionInfo :=
  if language = "typescript" || language = "javascript" then
    analyzeJavaScriptFunctions (splitLines content)
  else []

/-- The basic line-classification counters of `calculateBasicMetrics`. -/
structure BasicMetrics where
  linesOfCode : Nat
  logicalLinesOfCode : Nat
  commentLines : Nat
  blankLines : Nat
deriving DecidableEq, Repr

/-- Whether a trimmed line is classified as a comment line. -/
def isCommentStart (t : List Char) : Bool :=
  startsWithL "//".data t || startsWithL ['*'] t || startsWithL "/*".data t

/-- `CodeMetricsTool.calculateBasicMetrics`: total line count, and the
partition into blank, comment-looking, and logical lines. -/
def calculateBasicMetrics (lines : List (List Char)) : BasicMetrics :=
  { linesOfCode := lines.length,
    logicalLinesOfCode :=
      (lines.filter (fun l => !(trimL l = []) && !isCommentStart (trimL l))).length,
    commentLines :=
      (lines.filter (fun l => !(trimL l = []) && isCommentStart (trimL l))).length,
    blankLines := (lines.filter (fun l => trimL l = [])).length }

/-- The `calculateCognitiveComplexity` loop: the running brace depth is
updated first, then each branching-construct group adds one plus the
depth (the depth, hence the total, is an integer: unbalanced closers
drive it negative). -/
def cognitiveLoop (comp nest : Int) : List (List Char) → Int
  | [] => comp
  | l :: rest =>
    let trimmed := trimL l
    let nest1 := nest + countCharL obChar l - countCharL cbChar l
    let comp1 := comp +
      (if strContainsL "if".data trimmed || strContainsL "else if".data trimmed
       then 1 + nest1 else 0) +
      (if strContainsL "for".data trimmed || strContainsL "while".data trimmed
       then 1 + nest1 else 0) +
      (if strContainsL "switch".data trimmed then 1 + nest1 else 0) +
      (if strContainsL "catch".data trimmed then 1 + nest1 else 0)
    cognitiveLoop comp1 nest1 rest

/-- `CodeMetricsTool.calculateCognitiveComplexity`. -/
def calculateCognitiveComplexity (content : List Char) : Int :=
  cognitiveLoop 0 0 (splitLines content)

/-- The record returned by `calculateComplexityMetrics`. -/
structure ComplexityMetrics where
  cyclomaticComplexity : Nat
  cognitiveComplexity : Int
  nestingDepth : Int
  functionCount : Nat
  averageFunctionLength : Rat
  longestFunction : Nat
deriving DecidableEq, Repr

/-- `CodeMetricsTool.calculateComplexityMetrics`: the cyclomatic
complexity is the sum of the detected functions' own complexities; the
rest are the cognitive scan, maxima over the functions (with floor 0),
and the average function length (0 when no function was detected). -/
def calculateComplexityMetrics (content : List Char) (functions : List FunctionInfo) :
    ComplexityMetrics :=
  { cyclomaticComplexity := (functions.map (fun f => f.complexity)).sum,
    cognitiveComplexity := calculateCognitiveComplexity content,
    nestingDepth := functions.foldr (fun f m => max f.nestingDepth m) 0,
    functionCount := functions.length,
    averageFunctionLength :=
      if 0 < functions.length then
        ((functions.map (fun f => f.length)).sum : Rat) / functions.length
      else 0,
    longestFunction := functions.foldr (fun f m => max f.length m) 0 }

/-- Length of the leftmost-at-this-position match of `class\s+\w+`
(rule of `calculateStructureMetrics`), when it matches here. -/
def classMatchLen (t : List Char) : Option Nat :=
  if startsWithL "class".data t then
    let u := t.drop 5
    let ws := u.takeWhile isWSChar
    if ws = [] then none
    else
      let w := (u.drop ws.length).takeWhile isWordChar
      if w = [] then none else some (5 + ws.length + w.length)
  else none

/-- Length of the match of `\w+\s*\([^)]*\)\s*\x7b` at this position,
when it matches here. -/
def methodMatchLen (t : List Char) : Option Nat :=
  let w := t.takeWhile isWordChar
  if w = [] then none
  else
    let u := t.drop w.length
    let ws1 := u.takeWhile isWSChar
    match u.drop ws1.length with
    | '(' :: r =>
      let ps := r.takeWhile (fun c => !(c = ')'))
      match r.drop ps.length with
      | ')' :: r2 =>
        let ws2 := r2.takeWhile isWSChar
        match r2.drop ws2.length with
        | c :: _ =>
          if c = obChar then some (w.length + ws1.length + 1 + ps.length + 1 + ws2.length + 1)
          else none
        | [] => none
      | _ => none
    | _ => none

/-- Count of non-overlapping matches, scanning left to right and
resuming after each match — the length of `content.match(/…/g)`. -/
def countMatchesGo (matchLen : List Char → Option Nat) : List Char → Nat
  | [] => 0
  | c :: rest =>
    match matchLen (c :: rest) with
    | some n => 1 + countMatchesGo matchLen (rest.drop (n - 1))
    | none => countMatchesGo matchLen rest
termination_by l => l.length
decreasing_by
  all_goals simp [List.length_drop]
  omega

/-- The record returned by `calculateStructureMetrics`. -/
structure StructureMetrics where
  classCount : Nat
  methodCount : Nat
deriving DecidableEq, Repr

/-- `CodeMetricsTool.calculateStructureMetrics`: global match counts of
the class and method patterns over the whole content. -/
def calculateStructureMetrics (content : List Char) : StructureMetrics :=
  { classCount := countMatchesGo classMatchLen content,
    methodCount := countMatchesGo methodMatchLen content }

/-- `CodeMetricsTool.calculateMaintainabilityIndex`: the clamped
composite formula.  `Math.log` is the natural logarithm and `Math.log2`
the base-2 logarithm; the `cyclomaticComplexity || 1` guard maps a zero
complexity to one. -/
noncomputable def calculateMaintainabilityIndex (linesOfCode cyclomaticComplexity : Nat)
    (commentRatio : ℝ) : ℝ :=
  let volume : ℝ := (linesOfCode : ℝ) * Real.logb 2 ((linesOfCode : ℝ) + 1)
  let complexity : ℝ := if cyclomaticComplexity = 0 then 1 else (cyclomaticComplexity : ℝ)
  let index : ℝ :=
    171 - 5.2 * Real.log volume - 0.23 * complexity - 16.2 * Real.log (linesOfCode : ℝ)
      + commentRatio * 10
  max 0 (min 100 index)

/-- The `estimateDuplicateCode` loop: `seen` holds the trimmed text of
the earlier lines longer than ten characters (the keys of the source's
line map); each repeated long line past its first occurrence counts
one. -/
def dupLoop (seen : List (List Char)) : List (List Char) → Nat
  | [] => 0
  | l :: rest =>
    let t := trimL l
    if 10 < t.length then
      (if seen.contains t then 1 else 0) + dupLoop (t :: seen) rest
    else dupLoop seen rest

/-- `CodeMetricsTool.estimateDuplicateCode`: duplicate count divided by
the total number of lines (0 for an empty line list). -/
def estimateDuplicateCode (lines : List (List Char)) : Rat :=
  if 0 < lines.length then (dupLoop [] lines : Rat) / (lines.length : Rat) else 0

/-- The issue labels of `ProblematicFunction`. -/
inductive FnIssueKind where
  | tooComplex
  | tooLong
  | tooManyParams
  | deeplyNested
deriving DecidableEq, Repr

/-- A `ProblematicFunction` record.  `value` is an integer because the
nesting depth is one. -/
structure ProblematicFunction where
  name : String
  line : Nat
  issue : FnIssueKind
  value : Int
  suggestion : String
deriving DecidableEq, Repr

/-- The findings of one function in `identifyProblematicFunctions`, in
source order; the four thresholds are independent. -/
def perFnProblems (fn : FunctionInfo) : List ProblematicFunction :=
  (if 10 < fn.complexity then
    [{ name := fn.name, line := fn.line, issue := .tooComplex, value := fn.complexity,
       suggestion := "関数を小さな関数に分割することを検討してください" }]
   else []) ++
  (if 50 < fn.length then
    [{ name := fn.name, line := fn.line, issue := .tooLong, value := fn.length,
       suggestion := "関数を小さな関数に分割することを検討してください" }]
   else []) ++
  (if 5 < fn.parameterCount then
    [{ name := fn.name, line := fn.line, issue := .tooManyParams, value := fn.parameterCount,
       suggestion := "オブジェクトにパラメータをまとめることを検討してください" }]
   else []) ++
  (if 4 < fn.nestingDepth then
    [{ name := fn.name, line := fn.line, issue := .deeplyNested, value := fn.nestingDepth,
       suggestion := "early return やガード句を使用してネストを減らしてください" }]
   else [])

/-- `CodeMetricsTool.identifyProblematicFunctions`. -/
def identifyProblematicFunctions (functions : List FunctionInfo) : List ProblematicFunction :=
  functions.foldr (fun fn acc => perFnProblems fn ++ acc) []

/-- The suggestion type labels of `QualitySuggestion`. -/
inductive SugType where
  | complexity
  | length
  | duplication
  | naming
  | structureType
deriving DecidableEq, Repr

/-- A `QualitySuggestion` record. -/
structure QualitySuggestion where
  type : SugType
  priority : Severity
  message : String
  filename : String
  line : Option Nat
deriving DecidableEq, Repr

/-- `CodeMetricsTool.generateSuggestions`.  The comment ratio is an
exact rational here; the lines-of-code denominator is never zero for
content produced by a split. -/
def generateSuggestions (filename : String) (linesOfCode commentLines
    cyclomaticComplexity : Nat) : List QualitySuggestion :=
  (if 20 < cyclomaticComplexity then
    [{ type := .complexity, priority := .high,
       message := "ファイル全体の複雑度が高すぎます。関数の分割を検討してください",
       filename := filename, line := none }]
   else []) ++
  (if 500 < linesOfCode then
    [{ type := .length, priority := .medium,
       message := "ファイルが大きすぎます。複数のファイルに分割することを検討してください",
       filename := filename, line := none }]
   else []) ++
  (if (commentLines : Rat) / (linesOfCode : Rat) < 1 / 10 then
    [{ type := .structureType, priority := .low,
       message := "コメントが少なすぎます。コードの説明を追加してください",
       filename := filename, line := none }]
   else [])

/-- `CodeMetricsTool.calculateQualityScore`: start at 100, apply the
five penalty/bonus blocks in source order, clamp to `[0, 100]`. -/
noncomputable def calculateQualityScore (cyclomaticComplexity linesOfCode
    problematicFunctionCount : Nat) (duplicateCodeRatio : Rat)
    (maintainabilityIndex : ℝ) : ℝ :=
  let s1 : ℝ := 100 -
    (if 20 < cyclomaticComplexity then (20 : ℝ)
     else if 10 < cyclomaticComplexity then 10 else 0)
  let s2 : ℝ := s1 -
    (if 1000 < linesOfCode then (15 : ℝ) else if 500 < linesOfCode then 10 else 0)
  let s3 : ℝ := s2 - (problematicFunctionCount : ℝ) * 5
  let s4 : ℝ := s3 - (duplicateCodeRatio : ℝ) * 20
  let s5 : ℝ := s4 +
    (if 80 < maintainabilityIndex then (5 : ℝ)
     else if maintainabilityIndex < 50 then -10 else 0)
  max 0 (min 100 s5)

/-- `CodeMetricsTool.detectLanguage` (a shorter table than the
scanner's). -/
def detectLanguage (filename : String) : String :=
  let parts := splitOnChar '.' filename.data
  let ext := lowerL (parts.getLastD [])
  if ext = "ts".data then "typescript"
  else if ext = "tsx".data then "typescript"
  else if ext = "js".data then "javascript"
  else if ext = "jsx".data then "javascript"
  else if ext = "py".data then "python"
  else if ext = "java".data then "java"
  else if ext = "go".data then "go"
  else "unknown"

/-- The full `CodeMetrics` record of `calculateMetrics`. -/
structure CodeMetrics where
  filename : String
  language : String
  linesOfCode : Nat
  logicalLinesOfCode : Nat
  commentLines : Nat
  blankLines : Nat
  cyclomaticComplexity : Nat
  cognitiveComplexity : Int
  nestingDepth : Int
  functionCount : Nat
  averageFunctionLength : Rat
  longestFunction : Nat
  classCount : Nat
  methodCount : Nat
  maintainabilityIndex : ℝ
  duplicateCodeRatio : Rat
  qualityScore : ℝ
  problematicFunctions : List ProblematicFunction
  suggestions : List QualitySuggestion

/-- `CodeMetricsTool.calculateMetrics`: assemble every analysis of the
content.  The comment ratio handed to the maintainability index is the
real division `commentLines / linesOfCode` (the denominator, a split
length, is at least one). -/
noncomputable def calculateMetrics (content filename : String) : CodeMetrics :=
  let language := detectLanguage filename
  let lines := splitLines content.data
  let basic := calculateBasicMetrics lines
  let functions := analyzeFunctions content.data language
  let cx := calculateComplexityMetrics content.data functions
  let st := calculateStructureMetrics content.data
  let maintainabilityIndex := calculateMaintainabilityIndex basic.linesOfCode
    cx.cyclomaticComplexity ((basic.commentLines : ℝ) / (basic.linesOfCode : ℝ))
  let duplicateCodeRatio := estimateDuplicateCode lines
  let problematicFunctions := identifyProblematicFunctions functions
  let suggestions := generateSuggestions filename basic.linesOfCode basic.commentLines
    cx.cyclomaticComplexity
  let qualityScore := calculateQualityScore cx.cyclomaticComplexity basic.linesOfCode
    problematicFunctions.length duplicateCodeRatio maintainabilityIndex
  { filename := filename, language := language,
    linesOfCode := basic.linesOfCode, logicalLinesOfCode := basic.logicalLinesOfCode,
    commentLines := basic.commentLines, blankLines := basic.blankLines,
    cyclomaticComplexity := cx.cyclomaticComplexity,
    cognitiveComplexity := cx.cognitiveComplexity, nestingDepth := cx.nestingDepth,
    functionCount := cx.functionCount,
    averageFunctionLength := cx.averageFunctionLength,
    longestFunction := cx.longestFunction,
    classCount := st.classCount, methodCount := st.methodCount,
    maintainabilityIndex := maintainabilityIndex,
    duplicateCodeRatio := duplicateCodeRatio, qualityScore := qualityScore,
    problematicFunctions := problematicFunctions, suggestions := suggestions }

/-- `CodeMetricsTool.extractAddedContent`: the added-line bodies of the
patch joined with newlines (the same extraction as the scanner's,
followed by the join the source performs inline). -/
def extractAddedContent (patch : String) : List Char :=
  joinNL (extractAddedLines patch)

/-- `CodeMetricsTool.calculateBatchMetrics`: skip files with a falsy
patch or whose extracted added content trims to nothing; analyze the
rest.  The source wraps each analysis in a try/catch whose handler only
logs and skips; the embedded analysis is total, so the handler is
unreachable in the model. -/
noncomputable def calculateBatchMetrics : List FileChange → List CodeMetrics
  | [] => []
  | f :: rest =>
    if patchFalsy f.patch then calculateBatchMetrics rest
    else
      match f.patch with
      | none => calculateBatchMetrics rest
      | some p =>
        let added := extractAddedContent p
        if trimL added = [] then calculateBatchMetrics rest
        else calculateMetrics ⟨added⟩ f.filename :: calculateBatchMetrics rest

/-! ### Shared lemmas -/

/-- The four severity filters partition an issue list. -/
lemma filter_severity_partition (issues : List SecurityIssue) :
    (issues.filter (fun i => i.severity = .critical)).length +
      (issues.filter (fun i => i.severity = .high)).length +
      (issues.filter (fun i => i.severity = .medium)).length +
      (issues.filter (fun i => i.severity = .low)).length = issues.length := by
  induction issues with
  | nil => rfl
  | cons i rest ih =>
    simp only [List.filter_cons, List.length_cons]
    cases h : i.severity <;> simp [h] <;> omega

/-- The severity histogram of an issue list sums to its length. -/
lemma countBySeverity_sum (issues : List SecurityIssue) :
    (countBySeverity issues).critical + (countBySeverity issues).high +
      (countBySeverity issues).medium + (countBySeverity issues).low = issues.length :=
  filter_severity_partition issues

/-- The risk score is the capped weighted sum, hence at most 100. -/
lemma calculateRiskScore_le (s : SeverityCounts) : calculateRiskScore s ≤ 100 :=
  min_le_left _ _

/-- Both clamp formulas land in `[0, 100]`. -/
lemma clamp_bounds (x : ℝ) : 0 ≤ max 0 (min 100 x) ∧ max 0 (min 100 x) ≤ 100 :=
  ⟨le_max_left _ _, max_le (by norm_num) (min_le_left _ _)⟩

/-- The quality score is clamped to `[0, 100]` for every argument tuple. -/
lemma calculateQualityScore_bounds (a b c : Nat) (d : Rat) (e : ℝ) :
    0 ≤ calculateQualityScore a b c d e ∧ calculateQualityScore a b c d e ≤ 100 := by
  unfold calculateQualityScore
  exact clamp_bounds _

/-- The maintainability index is clamped to `[0, 100]` for every
argument tuple. -/
lemma calculateMaintainabilityIndex_bounds (a b : Nat) (r : ℝ) :
    0 ≤ calculateMaintainabilityIndex a b r ∧ calculateMaintainabilityIndex a b r ≤ 100 := by
  unfold calculateMaintainabilityIndex
  exact clamp_bounds _

/-! ### Claim theorems -/

/-- C2.  For every scanned file, the risk score is the severity-weighted
sum `25·critical + 10·high + 5·medium + 1·low` over that file's
findings, capped at 100, so it always lies in `[0, 100]`. -/
theorem c2_riskScore_formula (content filename : String) :
    (scanFile content filename).riskScore =
      min 100 ((scanFile content filename).bySeverity.critical * 25 +
        (scanFile content filename).bySeverity.high * 10 +
        (scanFile content filename).bySeverity.medium * 5 +
        (scanFile content filename).bySeverity.low * 1) ∧
    0 ≤ (scanFile content filename).riskScore ∧
    (scanFile content filename).riskScore ≤ 100 :=
  ⟨rfl, Nat.zero_le _, calculateRiskScore_le _⟩

/-- C3.  For every content string and filename, the severity counters of
the scan result sum to `totalIssues`, and the risk score lies in
`[0, 100]`. -/
theorem c3_severity_partition (content filename : String) :
    (scanFile content filename).bySeverity.critical +
      (scanFile content filename).bySeverity.high +
      (scanFile content filename).bySeverity.medium +
      (scanFile content filename).bySeverity.low =
      (scanFile content filename).totalIssues ∧
    0 ≤ (scanFile content filename).riskScore ∧
    (scanFile content filename).riskScore ≤ 100 :=
  ⟨countBySeverity_sum _, Nat.zero_le _, calculateRiskScore_le _⟩

/-- C7.  For every content string (the empty string included) and
filename, the quality score and the maintainability index of the
computed metrics lie in `[0, 100]`: both formulas end in a clamp, the
line count of a split is never zero, and the volume argument of the
logarithm carries the `+1` guard, so the real-valued embedding is
total and bounded. -/
theorem c7_score_bounds (content filename : String) :
    0 ≤ (calculateMetrics content filename).qualityScore ∧
    (calculateMetrics content filename).qualityScore ≤ 100 ∧
    0 ≤ (calculateMetrics content filename).maintainabilityIndex ∧
    (calculateMetrics content filename).maintainabilityIndex ≤ 100 := by
  refine ⟨?_, ?_, ?_, ?_⟩
  · exact (calculateQualityScore_bounds _ _ _ _ _).1
  · exact (calculateQualityScore_bounds _ _ _ _ _).2
  · exact (calculateMaintainabilityIndex_bounds _ _ _).1
  · exact (calculateMaintainabilityIndex_bounds _ _ _).2

/-- C9 counterexample.  A file whose patch is the empty string yields no
`CodeMetrics` entry at all — the batch output is empty, refuting the
claimed entry with zero lines and quality score 100. -/
theorem c9_empty_patch_cex :
    calculateBatchMetrics [⟨"config.ts", some ""⟩] = [] ∧
    (calculateBatchMetrics [⟨"config.ts", some ""⟩]).length = 0 :=
  ⟨rfl, rfl⟩

/-- C9 (amended).  A file-change whose patch is the empty string (or
absent, or whose patch has no added content) raises no exception — the
embedded batch functions are total — and is skipped: it contributes no
`CodeMetrics` entry and no security findings, leaving well-formed empty
batch results. -/
theorem c9_empty_patch_skipped (fname : String) :
    calculateBatchMetrics [⟨fname, some ""⟩] = [] ∧
    scanFiles [⟨fname, some ""⟩] = [] ∧
    calculateBatchMetrics [⟨fname, none⟩] = [] ∧
    scanFiles [⟨fname, none⟩] = [] ∧
    calculateBatchMetrics [⟨fname, some "-removed\n context"⟩] = [] ∧
    scanFiles [⟨fname, some "-removed\n context"⟩] = [] :=
  ⟨rfl, rfl, rfl, rfl, rfl, rfl⟩

/-- C1 counterexample.  Scanning the added line
`const password = "abc12345";` yields exactly one finding, and its
evidence — the trimmed matched line — holds the secret literal
`abc12345` verbatim: no redaction is applied, refuting the claim that
the matched secret never appears in the evidence. -/
theorem c1_evidence_not_redacted_cex :
    ((scanFile "const password = \"abc12345\";" "config.js").issues.map
      (fun i => strContainsL "abc12345".data i.evidence.data)) = [true] := by
  decide

/-- C1 (amended).  A file whose patch adds the single line
`const password = "abc12345";` produces exactly one finding, of
severity critical and category sensitive-data (the hardcoded-password
rule), on that line; the finding's evidence is the trimmed matched line
itself, in which the secret literal appears unredacted. -/
theorem c1_hardcoded_password_scan :
    scanFiles [⟨"config.js", some "+const password = \"abc12345\";"⟩] =
      [scanFile "const password = \"abc12345\";" "config.js"] ∧
    (scanFile "const password = \"abc12345\";" "config.js").totalIssues = 1 ∧
    (scanFile "const password = \"abc12345\";" "config.js").bySeverity =
      ⟨1, 0, 0, 0⟩ ∧
    ((scanFile "const password = \"abc12345\";" "config.js").issues.map
      (fun i => (i.severity, i.category, i.line, i.evidence))) =
      [(Severity.critical, Category.sensitiveData, 1,
        "const password = \"abc12345\";")] := by
  refine ⟨?_, by decide, by decide, ?_⟩
  · decide
  · decide

/-- C5 counterexample.  Scanning the added line
`const q = "SELECT * FROM t WHERE id=" + id;` produces zero findings —
no catalog rule matches it (the SQL rules need a `$\x7b…\x7d`
interpolation before a keyword, or a variable literally named
`query`/`sql` concatenated with `+`) — refuting the claimed single
critical SQL-injection finding. -/
theorem c5_sql_concat_cex :
    (scanFile "const q = \"SELECT * FROM t WHERE id=\" + id;" "a.ts").totalIssues = 0 := by
  decide

/-- C5 (amended).  A file whose patch adds the single line
`const q = "SELECT * FROM t WHERE id=" + id;` produces no finding at
all: the per-file scan reports zero issues, and the batch scan
therefore emits no entry for the file. -/
theorem c5_sql_concat_scan :
    (scanFile "const q = \"SELECT * FROM t WHERE id=\" + id;" "a.ts").issues = [] ∧
    scanFiles [⟨"a.ts", some "+const q = \"SELECT * FROM t WHERE id=\" + id;"⟩] = [] := by
  exact ⟨by decide, by decide⟩

/-- Membership in the concatenation of all issues of a batch. -/
lemma mem_allIssuesOf (i : SecurityIssue) (results : List SecurityScanResult) :
    i ∈ allIssuesOf results ↔ ∃ r ∈ results, i ∈ r.issues := by
  induction results with
  | nil => simp [allIssuesOf]
  | cons r rest ih =>
    simp only [show allIssuesOf (r :: rest) = r.issues ++ allIssuesOf rest from rfl,
      List.mem_append, ih, List.mem_cons]
    constructor
    · rintro (h | ⟨r', hr', hi⟩)
      · exact ⟨r, Or.inl rfl, h⟩
      · exact ⟨r', Or.inr hr', hi⟩
    · rintro ⟨r', rfl | hr', hi⟩
      · exact Or.inl hi
      · exact Or.inr ⟨r', hr', hi⟩

/-- A batch input for the C4 counterexample: one file whose scan result
carries three high-severity findings (as a single file with three
dynamic-SQL matches would). -/
def c4Issue (n : Nat) : SecurityIssue :=
  { severity := .high, category := .injection, title := "Dynamic SQL Construction",
    description := "動的にSQL文を構築しています", filename := "db.ts", line := n,
    evidence := "query += \"SELECT\"", recommendation := "プリペアドステートメントを使用してください",
    cweId := some "CWE-89", owasp := some "A03:2021 – Injection" }

/-- The single-file result list with three high findings. -/
def c4Input : List SecurityScanResult :=
  [{ filename := "db.ts", totalIssues := 3, bySeverity := ⟨0, 3, 0, 0⟩,
     issues := [c4Issue 1, c4Issue 2, c4Issue 3], riskScore := 30 }]

/-- Modelled from the claim's wording, for comparison with the code:
critical when any file has a critical finding; else high when more than
two FILES have a high finding; else medium when any high finding exists
or more than five medium findings exist; else low. -/
def claimedRiskLevel (results : List SecurityScanResult) : Severity :=
  if results.any (fun r => r.issues.any (fun i => i.severity = .critical)) then .critical
  else if 2 <
      (results.filter (fun r => r.issues.any (fun i => i.severity = .high))).length then
    .high
  else if results.any (fun r => r.issues.any (fun i => i.severity = .high)) ||
      5 < (countBySeverity (allIssuesOf results)).medium then
    .medium
  else .low

/-- C4 counterexample.  For a batch of one file carrying three high
findings, the code reports risk level high (it counts high FINDINGS
across the batch), while the claimed rule — more than two FILES with a
high finding — yields medium; the claim, read as stated, is false. -/
theorem c4_riskLevel_files_vs_findings_cex :
    (generateSecuritySummary c4Input).riskLevel = Severity.high ∧
    claimedRiskLevel c4Input = Severity.medium ∧
    ¬(generateSecuritySummary c4Input).riskLevel = claimedRiskLevel c4Input := by
  refine ⟨by decide, by decide, by decide⟩

/-- C4 (amended).  The batch risk level is critical when any file has a
critical finding; otherwise high when the total number of high-severity
findings across all files exceeds two; otherwise medium when any
high finding exists or more than five medium findings exist; otherwise
low.  The first conjunct states the code's formula over the histogram
of all findings; the second identifies its critical test with the
claim's "any file has a critical finding". -/
theorem c4_riskLevel_formula (results : List SecurityScanResult) :
    (generateSecuritySummary results).riskLevel =
      (if 0 < (countBySeverity (allIssuesOf results)).critical then Severity.critical
       else if 2 < (countBySeverity (allIssuesOf results)).high then Severity.high
       else if 0 < (countBySeverity (allIssuesOf results)).high ||
           5 < (countBySeverity (allIssuesOf results)).medium then Severity.medium
       else Severity.low) ∧
    (0 < (countBySeverity (allIssuesOf results)).critical ↔
      ∃ r ∈ results, ∃ i ∈ r.issues, i.severity = Severity.critical) := by
  constructor
  · rfl
  · have hcrit : (countBySeverity (allIssuesOf results)).critical =
        ((allIssuesOf results).filter (fun i => i.severity = .critical)).length := rfl
    rw [hcrit]
    constructor
    · intro h
      obtain ⟨i, hi⟩ := List.exists_mem_of_length_pos h
      have hmem := List.mem_filter.mp hi
      obtain ⟨r, hr, hir⟩ := (mem_allIssuesOf i results).mp hmem.1
      exact ⟨r, hr, i, hir, by simpa using hmem.2⟩
    · rintro ⟨r, hr, i, hi, hsev⟩
      exact List.length_pos_of_mem (List.mem_filter.mpr
        ⟨(mem_allIssuesOf i results).mpr ⟨r, hr, hi⟩, by simpa using hsev⟩)

/-- `exp 2` is comfortably larger than 7. -/
lemma exp_two_gt_seven : (7 : ℝ) < Real.exp 2 := by
  have h1 : (2.7182818283 : ℝ) < Real.exp 1 := Real.exp_one_gt_d9
  have h2 : Real.exp 2 = Real.exp 1 * Real.exp 1 := by
    rw [← Real.exp_add]
    norm_num
  nlinarith

/-- Natural logarithms of reals at most 7 are at most 2. -/
lemma log_le_two (x : ℝ) (hx : 0 < x) (h7 : x ≤ 7) : Real.log x ≤ 2 := by
  rw [Real.log_le_iff_le_exp hx]
  linarith [exp_two_gt_seven]

/-- `log2 4 = 2`. -/
lemma logb_two_four : Real.logb 2 4 = 2 := by
  have h : (4 : ℝ) = 2 ^ (2 : ℕ) := by norm_num
  rw [h, Real.logb_pow, Real.logb_self_eq_one (by norm_num : (1 : ℝ) < 2)]
  norm_num

/-- For a three-line file of cyclomatic complexity 0 and any
non-negative comment ratio, the unclamped maintainability index exceeds
100, so the clamped index is exactly 100. -/
lemma mi_three_lines (cr : ℝ) (hcr : 0 ≤ cr) :
    calculateMaintainabilityIndex 3 0 cr = 100 := by
  have hrfl : calculateMaintainabilityIndex 3 0 cr =
      max 0 (min 100
        (171 - 5.2 * Real.log (((3 : Nat) : ℝ) * Real.logb 2 (((3 : Nat) : ℝ) + 1))
          - 0.23 * 1 - 16.2 * Real.log ((3 : Nat) : ℝ) + cr * 10)) := rfl
  have hv : ((3 : Nat) : ℝ) * Real.logb 2 (((3 : Nat) : ℝ) + 1) = 6 := by
    push_cast
    rw [show (3 : ℝ) + 1 = 4 by norm_num, logb_two_four]
    norm_num
  rw [hrfl, hv]
  have h6 : Real.log 6 ≤ 2 := log_le_two 6 (by norm_num) (by norm_num)
  have h3 : Real.log ((3 : Nat) : ℝ) ≤ 2 := by
    push_cast
    exact log_le_two 3 (by norm_num) (by norm_num)
  have hix : (100 : ℝ) ≤
      171 - 5.2 * Real.log 6 - 0.23 * 1 - 16.2 * Real.log ((3 : Nat) : ℝ) + cr * 10 := by
    set a := Real.log 6 with ha
    set b := Real.log ((3 : Nat) : ℝ) with hb
    linarith
  rw [min_eq_left hix, max_eq_right (by norm_num : (0 : ℝ) ≤ 100)]

/-- With no penalties and a maintainability index above 80, the quality
score of a three-line file clamps to exactly 100. -/
lemma qs_three_lines (mi : ℝ) (h : 80 < mi) :
    calculateQualityScore 0 3 0 0 mi = 100 := by
  unfold calculateQualityScore
  rw [if_pos h]
  norm_num

/-- C6 counterexample.  The patch adding the three short keyword-free
lines `x = 1`, `y = 2`, `z = 3` yields cyclomatic complexity 0, not 1:
no function is detected, and the complexity is the sum over detected
functions, which is empty. -/
theorem c6_trivial_patch_cex :
    ((calculateBatchMetrics [⟨"util.ts", some "+x = 1\n+y = 2\n+z = 3"⟩]).map
      (fun m => m.cyclomaticComplexity)) = [0] ∧
    ¬((calculateBatchMetrics [⟨"util.ts", some "+x = 1\n+y = 2\n+z = 3"⟩]).map
      (fun m => m.cyclomaticComplexity)) = [1] := by
  exact ⟨by decide, by decide⟩

/-- C6 (amended).  For every file, the cyclomatic complexity is the sum
of the detected functions' own complexities (base 1 plus the per-line
branching-keyword increments accumulated over the function's span); for
the patch adding the three short keyword-free lines `x = 1`, `y = 2`,
`z = 3`, no function is detected, so the cyclomatic complexity is 0
(not 1), there are no problematic functions, the quality score is 100,
and the file's security risk score is 0. -/
theorem c6_cyclomatic_sum_and_trivial_patch :
    (∀ content filename : String,
      (calculateMetrics content filename).cyclomaticComplexity =
        ((analyzeFunctions content.data (detectLanguage filename)).map
          (fun f => f.complexity)).sum) ∧
    calculateBatchMetrics [⟨"util.ts", some "+x = 1\n+y = 2\n+z = 3"⟩] =
      [calculateMetrics "x = 1\ny = 2\nz = 3" "util.ts"] ∧
    (calculateMetrics "x = 1\ny = 2\nz = 3" "util.ts").cyclomaticComplexity = 0 ∧
    (calculateMetrics "x = 1\ny = 2\nz = 3" "util.ts").problematicFunctions = [] ∧
    (calculateMetrics "x = 1\ny = 2\nz = 3" "util.ts").qualityScore = 100 ∧
    (scanFile "x = 1\ny = 2\nz = 3" "util.ts").riskScore = 0 := by
  refine ⟨fun content filename => rfl, rfl, by decide, by decide, ?_, by decide⟩
  have e6 : (calculateMetrics "x = 1\ny = 2\nz = 3" "util.ts").qualityScore =
      calculateQualityScore
        (calculateMetrics "x = 1\ny = 2\nz = 3" "util.ts").cyclomaticComplexity
        (calculateMetrics "x = 1\ny = 2\nz = 3" "util.ts").linesOfCode
        (calculateMetrics "x = 1\ny = 2\nz = 3" "util.ts").problematicFunctions.length
        (calculateMetrics "x = 1\ny = 2\nz = 3" "util.ts").duplicateCodeRatio
        (calculateMetrics "x = 1\ny = 2\nz = 3" "util.ts").maintainabilityIndex := rfl
  have e1 : (calculateMetrics "x = 1\ny = 2\nz = 3" "util.ts").cyclomaticComplexity = 0 := by
    decide
  have e2 : (calculateMetrics "x = 1\ny = 2\nz = 3" "util.ts").linesOfCode = 3 := by decide
  have e3 : (calculateMetrics "x = 1\ny = 2\nz = 3" "util.ts").problematicFunctions = [] := by
    decide
  have e4 : (calculateMetrics "x = 1\ny = 2\nz = 3" "util.ts").duplicateCodeRatio = 0 := by
    have h0 : dupLoop [] (splitLines "x = 1\ny = 2\nz = 3".data) = 0 := by decide
    have hlen : (splitLines "x = 1\ny = 2\nz = 3".data).length = 3 := by decide
    have hd : (calculateMetrics "x = 1\ny = 2\nz = 3" "util.ts").duplicateCodeRatio =
        estimateDuplicateCode (splitLines "x = 1\ny = 2\nz = 3".data) := rfl
    rw [hd]
    unfold estimateDuplicateCode
    rw [h0, hlen]
    norm_num
  have e5 : (calculateMetrics "x = 1\ny = 2\nz = 3" "util.ts").maintainabilityIndex = 100 := by
    have hm : (calculateMetrics "x = 1\ny = 2\nz = 3" "util.ts").maintainabilityIndex =
        calculateMaintainabilityIndex 3 0 (((0 : Nat) : ℝ) / ((3 : Nat) : ℝ)) := rfl
    rw [hm]
    exact mi_three_lines _ (by positivity)
  rw [e6, e1, e2, e3, e4, e5]
  simpa using qs_three_lines 100 (by norm_num)

/-- Positional description of the duplicate count: walking the lines
with the list of already-seen lines at hand, a line counts when its
trimmed text is longer than ten characters and repeats the trimmed
text of an earlier line. -/
def dupSpec (prev : List (List Char)) : List (List Char) → Nat
  | [] => 0
  | l :: rest =>
    (if 10 < (trimL l).length ∧ ∃ l2 ∈ prev, trimL l2 = trimL l then 1 else 0) +
      dupSpec (prev ++ [l]) rest

/-- Count of second-and-later occurrences within a list (no length
filter, no trimming) — the numerator of the claim's ratio. -/
def dupAmong (seen : List (List Char)) : List (List Char) → Nat
  | [] => 0
  | l :: rest => (if seen.contains l then 1 else 0) + dupAmong (l :: seen) rest

/-- Modelled from the claim's wording, for comparison with the code:
the fraction, among lines longer than ten characters, of lines that
repeat an earlier exact-text line (counting only the 2nd+ occurrence). -/
def claimedDuplicateRatio (lines : List (List Char)) : Rat :=
  if 0 < (lines.filter (fun l => 10 < l.length)).length then
    (dupAmong [] (lines.filter (fun l => 10 < l.length)) : Rat) /
      ((lines.filter (fun l => 10 < l.length)).length : Rat)
  else 0

/-- The seen-set loop of the source computes the positional duplicate
count: the invariant is that `seen` holds exactly the trimmed texts of
the earlier lines that passed the length filter (and membership of a
trimmed text forces the filter, as equal texts have equal lengths). -/
lemma dupLoop_eq_dupSpec :
    ∀ (rest prev seen : List (List Char)),
      (∀ t, t ∈ seen ↔ ∃ l2 ∈ prev, trimL l2 = t ∧ 10 < t.length) →
      dupLoop seen rest = dupSpec prev rest := by
  intro rest
  induction rest with
  | nil => intro prev seen _; rfl
  | cons l rest ih =>
    intro prev seen hinv
    by_cases hlong : 10 < (trimL l).length
    · have hcond : (10 < (trimL l).length ∧ ∃ l2 ∈ prev, trimL l2 = trimL l) ↔
          trimL l ∈ seen := by
        rw [hinv]
        constructor
        · rintro ⟨_, l2, hl2, he⟩
          exact ⟨l2, hl2, he, hlong⟩
        · rintro ⟨l2, hl2, he, _⟩
          exact ⟨hlong, l2, hl2, he⟩
      have hrec : dupLoop (trimL l :: seen) rest = dupSpec (prev ++ [l]) rest := by
        apply ih
        intro t
        simp only [List.mem_cons, hinv, List.mem_append, List.not_mem_nil, or_false]
        constructor
        · rintro (rfl | ⟨l2, hl2, he, hlen⟩)
          · exact ⟨l, Or.inr rfl, rfl, hlong⟩
          · exact ⟨l2, Or.inl hl2, he, hlen⟩
        · rintro ⟨l2, hl2 | rfl, he, hlen⟩
          · exact Or.inr ⟨l2, hl2, he, hlen⟩
          · exact Or.inl he.symm
      show (if 10 < (trimL l).length then
          (if seen.contains (trimL l) then 1 else 0) + dupLoop (trimL l :: seen) rest
        else dupLoop seen rest) = _
      rw [if_pos hlong, hrec]
      show _ = (if 10 < (trimL l).length ∧ ∃ l2 ∈ prev, trimL l2 = trimL l then 1 else 0) +
        dupSpec (prev ++ [l]) rest
      congr 1
      by_cases hmem : trimL l ∈ seen
      · rw [if_pos (List.elem_iff.mpr hmem), if_pos (hcond.mpr hmem)]
      · rw [if_neg (fun hc => hmem (List.elem_iff.mp hc)),
          if_neg (fun hc => hmem (hcond.mp hc))]
    · have hrec : dupLoop seen rest = dupSpec (prev ++ [l]) rest := by
        apply ih
        intro t
        simp only [hinv, List.mem_append, List.mem_cons, List.not_mem_nil, or_false]
        constructor
        · rintro ⟨l2, hl2, he, hlen⟩
          exact ⟨l2, Or.inl hl2, he, hlen⟩
        · rintro ⟨l2, hl2 | rfl, he, hlen⟩
          · exact ⟨l2, hl2, he, hlen⟩
          · exact absurd (he ▸ hlen) hlong
      show (if 10 < (trimL l).length then
          (if seen.contains (trimL l) then 1 else 0) + dupLoop (trimL l :: seen) rest
        else dupLoop seen rest) = _
      rw [if_neg hlong, hrec]
      show dupSpec (prev ++ [l]) rest =
        (if 10 < (trimL l).length ∧ ∃ l2 ∈ prev, trimL l2 = trimL l then 1 else 0) +
          dupSpec (prev ++ [l]) rest
      rw [if_neg (fun hc => hlong hc.1)]
      omega

/-- A character split always yields at least one part. -/
lemma splitOnChar_ne_nil (sep : Char) (l : List Char) : splitOnChar sep l ≠ [] := by
  induction l with
  | nil => simp [splitOnChar]
  | cons c rest ih =>
    simp only [splitOnChar]
    cases h : splitOnChar sep rest with
    | nil => simp
    | cons hd tl =>
      dsimp only
      split <;> simp

/-- C8 counterexample.  For the blob holding two copies of a 12-character
line and one short line, the code divides the one duplicate by all
3 lines (ratio 1/3), while the claimed ratio — among lines longer than
10 characters only — is 1/2; the claim, read as stated, is false. -/
theorem c8_duplicate_ratio_denominator_cex :
    (calculateMetrics "abcdefghijkl\nabcdefghijkl\nx" "a.ts").duplicateCodeRatio = 1 / 3 ∧
    claimedDuplicateRatio (splitLines "abcdefghijkl\nabcdefghijkl\nx".data) = 1 / 2 ∧
    ¬(calculateMetrics "abcdefghijkl\nabcdefghijkl\nx" "a.ts").duplicateCodeRatio =
      claimedDuplicateRatio (splitLines "abcdefghijkl\nabcdefghijkl\nx".data) := by
  have h1 : (calculateMetrics "abcdefghijkl\nabcdefghijkl\nx" "a.ts").duplicateCodeRatio =
      estimateDuplicateCode (splitLines "abcdefghijkl\nabcdefghijkl\nx".data) := rfl
  have hdl : dupLoop [] (splitLines "abcdefghijkl\nabcdefghijkl\nx".data) = 1 := by decide
  have hlen : (splitLines "abcdefghijkl\nabcdefghijkl\nx".data).length = 3 := by decide
  have he : estimateDuplicateCode (splitLines "abcdefghijkl\nabcdefghijkl\nx".data) = 1 / 3 := by
    unfold estimateDuplicateCode
    rw [hdl, hlen]
    norm_num
  have hlongs : (splitLines "abcdefghijkl\nabcdefghijkl\nx".data).filter
      (fun l => 10 < l.length) =
      ["abcdefghijkl".data, "abcdefghijkl".data] := by decide
  have hc : claimedDuplicateRatio (splitLines "abcdefghijkl\nabcdefghijkl\nx".data) = 1 / 2 := by
    unfold claimedDuplicateRatio
    rw [hlongs]
    have hd2 : dupAmong [] ["abcdefghijkl".data, "abcdefghijkl".data] = 1 := by decide
    rw [hd2]
    norm_num
  refine ⟨h1.trans he, hc, ?_⟩
  rw [h1, he, hc]
  norm_num

/-- C8 (amended).  The duplicate-code ratio is the number of lines whose
trimmed text is longer than ten characters and repeats the trimmed text
of an earlier line (second and later occurrences only), divided by the
TOTAL number of lines of the blob — not by the number of long lines —
and lines are compared by trimmed text. -/
theorem c8_duplicate_ratio_formula (content filename : String) :
    (calculateMetrics content filename).duplicateCodeRatio =
      (dupSpec [] (splitLines content.data) : Rat) /
        ((splitLines content.data).length : Rat) := by
  have h1 : (calculateMetrics content filename).duplicateCodeRatio =
      estimateDuplicateCode (splitLines content.data) := rfl
  rw [h1]
  unfold estimateDuplicateCode
  have hpos : 0 < (splitLines content.data).length :=
    List.length_pos.mpr (splitOnChar_ne_nil '\n' content.data)
  rw [if_pos hpos, dupLoop_eq_dupSpec _ [] [] (by simp)]

/-- Each issue a line contributes carries that line's 1-based number. -/
lemma mem_issuesForLine_line (f lg : String) (n : Nat) (l : List Char) (i : SecurityIssue)
    (h : i ∈ issuesForLine f lg n l) : i.line = n := by
  simp only [issuesForLine, List.mem_map] at h
  obtain ⟨r, _, rfl⟩ := h
  rfl

/-- Every issue of the line loop arises from the line at a definite
offset, and carries that line's number. -/
lemma mem_scanIssuesFrom (f lg : String) :
    ∀ (ls : List (List Char)) (n : Nat) (i : SecurityIssue),
      i ∈ scanIssuesFrom f lg n ls →
      ∃ k l2, ls.get? k = some l2 ∧ i.line = n + k ∧ i ∈ issuesForLine f lg (n + k) l2 := by
  intro ls
  induction ls with
  | nil => intro n i h; simp [scanIssuesFrom] at h
  | cons l rest ih =>
    intro n i h
    rw [show scanIssuesFrom f lg n (l :: rest) =
        issuesForLine f lg n l ++ scanIssuesFrom f lg (n + 1) rest from rfl,
      List.mem_append] at h
    rcases h with h | h
    · refine ⟨0, l, rfl, ?_, ?_⟩
      · rw [Nat.add_zero]
        exact mem_issuesForLine_line f lg n l i h
      · rw [Nat.add_zero]
        exact h
    · obtain ⟨k, l2, hget, hline, hmem⟩ := ih (n + 1) i h
      refine ⟨k + 1, l2, by simpa using hget, by omega, ?_⟩
      rw [show n + (k + 1) = (n + 1) + k from by omega]
      exact hmem

/-- Issue lists whose members all carry the same line number are sorted
by line number. -/
lemma pairwise_line_le_of_const {lst : List SecurityIssue} {n : Nat}
    (h : ∀ i ∈ lst, i.line = n) : lst.Pairwise (fun a b => a.line ≤ b.line) := by
  induction lst with
  | nil => exact List.Pairwise.nil
  | cons a rest ih =>
    refine List.Pairwise.cons ?_ (ih fun i hi => h i (List.mem_cons_of_mem _ hi))
    intro b hb
    rw [h a (List.mem_cons_self _ _), h b (List.mem_cons_of_mem _ hb)]

/-- The issues of the line loop come out sorted by line number. -/
lemma scanIssuesFrom_sorted (f lg : String) :
    ∀ (ls : List (List Char)) (n : Nat),
      (scanIssuesFrom f lg n ls).Pairwise (fun a b => a.line ≤ b.line) := by
  intro ls
  induction ls with
  | nil => intro n; exact List.Pairwise.nil
  | cons l rest ih =>
    intro n
    rw [show scanIssuesFrom f lg n (l :: rest) =
        issuesForLine f lg n l ++ scanIssuesFrom f lg (n + 1) rest from rfl,
      List.pairwise_append]
    refine ⟨pairwise_line_le_of_const (fun i hi => mem_issuesForLine_line f lg n l i hi),
      ih (n + 1), ?_⟩
    intro a ha b hb
    rw [mem_issuesForLine_line f lg n l a ha]
    obtain ⟨k, l2, _, hline, _⟩ := mem_scanIssuesFrom f lg rest (n + 1) b hb
    omega

/-- Splitting a list with no separator yields the single part. -/
lemma splitOnChar_no_sep (sep : Char) :
    ∀ (l : List Char), sep ∉ l → splitOnChar sep l = [l] := by
  intro l
  induction l with
  | nil => intro _; rfl
  | cons c rest ih =>
    intro h
    have hc : ¬c = sep := fun e => h (by rw [e]; exact List.mem_cons_self _ _)
    have hrest : sep ∉ rest := fun e => h (List.mem_cons_of_mem _ e)
    simp only [splitOnChar]
    rw [ih hrest]
    simp [hc]

/-- Splitting at the first separator peels off the separator-free part
before it. -/
lemma splitOnChar_append (sep : Char) :
    ∀ (a b : List Char), sep ∉ a →
      splitOnChar sep (a ++ sep :: b) = a :: splitOnChar sep b := by
  intro a
  induction a with
  | nil =>
    intro b _
    show splitOnChar sep (sep :: b) = [] :: splitOnChar sep b
    simp only [splitOnChar]
    cases hsb : splitOnChar sep b with
    | nil => exact absurd hsb (splitOnChar_ne_nil sep b)
    | cons hd t => simp
  | cons c a' ih =>
    intro b h
    have hc : ¬c = sep := fun e => h (by rw [e]; exact List.mem_cons_self _ _)
    have ha' : sep ∉ a' := fun e => h (List.mem_cons_of_mem _ e)
    show splitOnChar sep (c :: (a' ++ sep :: b)) = (c :: a') :: splitOnChar sep b
    simp only [splitOnChar]
    rw [ih b ha']
    simp [hc]

/-- Joining newline-free lines and splitting again is the identity (on
a nonempty line list). -/
lemma splitLines_joinNL :
    ∀ (ls : List (List Char)), ls ≠ [] → (∀ l ∈ ls, '\n' ∉ l) →
      splitLines (joinNL ls) = ls := by
  intro ls
  induction ls with
  | nil => intro h; cases h rfl
  | cons l rest ih =>
    intro _ hnl
    cases rest with
    | nil =>
      show splitOnChar '\n' l = [l]
      exact splitOnChar_no_sep '\n' l (hnl l (List.mem_cons_self _ _))
    | cons l' rest' =>
      show splitOnChar '\n' (l ++ '\n' :: joinNL (l' :: rest')) = l :: l' :: rest'
      rw [splitOnChar_append '\n' l _ (hnl l (List.mem_cons_self _ _))]
      congr 1
      exact ih (by simp) (fun x hx => hnl x (List.mem_cons_of_mem _ hx))

/-- No part of a split still holds the separator. -/
lemma splitOnChar_not_mem (sep : Char) :
    ∀ (l : List Char) (part : List Char), part ∈ splitOnChar sep l → sep ∉ part := by
  intro l
  induction l with
  | nil =>
    intro part h
    simp only [splitOnChar, List.mem_cons, List.not_mem_nil, or_false] at h
    subst h
    simp
  | cons c rest ih =>
    intro part h
    simp only [splitOnChar] at h
    cases hsr : splitOnChar sep rest with
    | nil => exact absurd hsr (splitOnChar_ne_nil sep rest)
    | cons hd t =>
      rw [hsr] at h
      dsimp only at h
      by_cases hc : c = sep
      · rw [if_pos hc] at h
        rcases List.mem_cons.mp h with rfl | h2
        · simp
        · exact ih part (hsr ▸ h2)
      · rw [if_neg hc] at h
        rcases List.mem_cons.mp h with rfl | h2
        · intro hm
          rcases List.mem_cons.mp hm with rfl | hm2
          · exact hc rfl
          · exact ih hd (hsr ▸ List.mem_cons_self _ _) hm2
        · exact ih part (hsr ▸ List.mem_cons_of_mem _ h2)

/-- Added lines extracted from a patch hold no newline. -/
lemma extractAddedLines_no_nl (p : String) :
    ∀ l ∈ extractAddedLines p, '\n' ∉ l := by
  intro l hl
  simp only [extractAddedLines, extractAddedLinesL, List.mem_map] at hl
  obtain ⟨l0, hl0, rfl⟩ := hl
  have h0 : l0 ∈ splitLines p.data := List.mem_of_mem_filter hl0
  intro hmem
  exact splitOnChar_not_mem '\n' p.data l0 h0 (List.mem_of_mem_drop hmem)

/-- Every batch result comes from some input file with a usable patch,
equals the scan of that file's joined added lines, and has at least one
issue. -/
lemma scanFiles_mem :
    ∀ (files : List FileChange) (r : SecurityScanResult), r ∈ scanFiles files →
      0 < r.totalIssues ∧ ∃ f ∈ files, ∃ p, f.patch = some p ∧
        extractAddedLines p ≠ [] ∧
        r = scanFile ⟨joinNL (extractAddedLines p)⟩ f.filename := by
  intro files
  induction files with
  | nil => intro r hr; simp [scanFiles] at hr
  | cons f rest ih =>
    intro r hr
    have step : r ∈ scanFiles rest →
        0 < r.totalIssues ∧ ∃ f' ∈ f :: rest, ∃ p, f'.patch = some p ∧
          extractAddedLines p ≠ [] ∧
          r = scanFile ⟨joinNL (extractAddedLines p)⟩ f'.filename := by
      intro hr'
      obtain ⟨hpos, f', hf', p', hp', hne', hre'⟩ := ih r hr'
      exact ⟨hpos, f', List.mem_cons_of_mem _ hf', p', hp', hne', hre'⟩
    cases hfp : f.patch with
    | none =>
      simp only [scanFiles, hfp] at hr
      exact step hr
    | some p =>
      simp only [scanFiles, hfp] at hr
      by_cases hpf : patchFalsy (some p)
      · rw [if_pos hpf] at hr
        exact step hr
      · rw [if_neg hpf] at hr
        by_cases hadd : extractAddedLines p = []
        · rw [if_pos hadd] at hr
          exact step hr
        · rw [if_neg hadd] at hr
          by_cases hpos : 0 < (scanFile ⟨joinNL (extractAddedLines p)⟩ f.filename).totalIssues
          · rw [if_pos hpos] at hr
            rcases List.mem_cons.mp hr with rfl | hr'
            · exact ⟨hpos, f, List.mem_cons_self _ _, p, hfp, hadd, rfl⟩
            · exact step hr'
          · rw [if_neg hpos] at hr
            exact step hr

/-- C10 (numbering of findings in added lines).  Part one: for every
scan, the findings are sorted by line number and each line number is a
1-based index into the scanned line list.  Part two: lines not starting
with `+` — hunk headers `@@ … @@` included — contribute nothing to the
added-line extraction.  Part three: every batch result has at least one
issue (a clean file contributes no entry), belongs to some input file,
and each of its findings' line fields is the 1-based position, within
that file's extracted added lines, of an added line that produces the
finding. -/
theorem c10_added_line_numbering :
    (∀ content filename : String,
      ((scanFile content filename).issues.Pairwise (fun a b => a.line ≤ b.line)) ∧
      ∀ i ∈ (scanFile content filename).issues,
        1 ≤ i.line ∧ i.line ≤ (splitLines content.data).length) ∧
    (∀ ls : List (List Char),
      extractAddedLinesL (ls.filter (fun l => !startsWithL ['@', '@'] l)) =
        extractAddedLinesL ls) ∧
    (∀ (files : List FileChange) (r : SecurityScanResult), r ∈ scanFiles files →
      0 < r.totalIssues ∧ ∃ f ∈ files, ∃ p, f.patch = some p ∧
        r.filename = f.filename ∧
        ∀ i ∈ r.issues, ∃ l2, (extractAddedLines p).get? (i.line - 1) = some l2 ∧
          i ∈ issuesForLine f.filename (getFileLanguage f.filename) i.line l2) := by
  refine ⟨?_, ?_, ?_⟩
  · intro content filename
    have hiss : (scanFile content filename).issues =
        scanIssuesFrom filename (getFileLanguage filename) 1 (splitLines content.data) := rfl
    rw [hiss]
    refine ⟨scanIssuesFrom_sorted _ _ _ _, ?_⟩
    intro i hi
    obtain ⟨k, l2, hget, hline, _⟩ :=
      mem_scanIssuesFrom _ _ (splitLines content.data) 1 i hi
    have hk : k < (splitLines content.data).length := by
      rcases List.get?_eq_some.mp hget with ⟨hlt, _⟩
      exact hlt
    omega
  · intro ls
    unfold extractAddedLinesL
    rw [List.filter_filter]
    congr 1
    apply List.filter_congr
    intro a _
    cases a with
    | nil => rfl
    | cons c rest =>
      by_cases hc : '+' = c
      · subst hc
        simp [startsWithL]
      · simp [startsWithL, hc]
  · intro files r hr
    obtain ⟨hpos, f, hf, p, hp, hne, hre⟩ := scanFiles_mem files r hr
    have hsplit : splitLines (joinNL (extractAddedLines p)) = extractAddedLines p :=
      splitLines_joinNL _ hne (extractAddedLines_no_nl p)
    refine ⟨hpos, f, hf, p, hp, by rw [hre]; rfl, ?_⟩
    intro i hi
    rw [hre] at hi
    have hiss : (scanFile ⟨joinNL (extractAddedLines p)⟩ f.filename).issues =
        scanIssuesFrom f.filename (getFileLanguage f.filename) 1
          (splitLines (joinNL (extractAddedLines p))) := rfl
    rw [hiss, hsplit] at hi
    obtain ⟨k, l2, hget, hline, hmem⟩ :=
      mem_scanIssuesFrom f.filename (getFileLanguage f.filename) (extractAddedLines p) 1 i hi
    refine ⟨l2, ?_, ?_⟩
    · rw [hline, show (1 + k) - 1 = k from by omega]
      exact hget
    · rw [hline]
      exact hmem

/-- Witness for C10: the batch of one file whose patch adds the line
`eval(input)` yields the scan of that line as its single result; the
theorem, applied to this concrete batch with the membership discharged
by evaluation, places its one finding at 1-based position 1 of the
added lines. -/
theorem c10_added_line_numbering_witness :
    0 < (scanFile "eval(input)" "mod.ts").totalIssues ∧
    ∃ f ∈ [({ filename := "mod.ts", patch := some "+eval(input)" } : FileChange)],
      ∃ p, f.patch = some p ∧
        (scanFile "eval(input)" "mod.ts").filename = f.filename ∧
        ∀ i ∈ (scanFile "eval(input)" "mod.ts").issues, ∃ l2,
          (extractAddedLines p).get? (i.line - 1) = some l2 ∧
          i ∈ issuesForLine f.filename (getFileLanguage f.filename) i.line l2 :=
  c10_added_line_numbering.2.2 [⟨"mod.ts", some "+eval(input)"⟩]
    (scanFile "eval(input)" "mod.ts") (by decide)

end PRA
